import Mathlib

set_option maxRecDepth 100000

/-!
Shallow embedding of the Flappy Bird simulation core from `src/game.py`
(classes `Bird`, `Pipe`, `FlappyBirdGame`).

Modelling conventions:
* Python floats are modelled as exact rationals `ℚ`.  Every quantity the
  claims are about is produced by `+`, `-`, `*`, division by the constant
  `FPS`, and comparisons, so `ℚ` mirrors the source arithmetic.
* `pygame.Rect` stores integer coordinates: float arguments are truncated
  toward zero.  `Rect.colliderect` is the strict axis-aligned overlap test
  (touching edges do not collide).
* `random.randint(a, b)` is modelled as a function of an external draw
  `r : ℕ`; it fails (`none`) exactly when `a > b`, the case in which the
  Python call raises `ValueError`.
* Methods that mutate `self` become functions returning the new value;
  `FlappyBirdGame.step` returns the new game together with the triple
  `(state, reward, done)`; the spawn of a new pipe can fail (invalid
  `pipe_gap`), hence the `Except Unit` result.
-/

namespace Flappy

/-- Screen width constant `WIDTH = 400` from `src/game.py`. -/
def WIDTH : ℤ := 400

/-- Screen height constant `HEIGHT = 600` from `src/game.py`. -/
def HEIGHT : ℤ := 600

/-- Frame rate constant `FPS = 60` from `src/game.py`. -/
def FPS : ℤ := 60

/-- Truncation toward zero, the conversion `pygame.Rect` applies to float
coordinates. -/
def ratTrunc (q : ℚ) : ℤ := if 0 ≤ q then ⌊q⌋ else ⌈q⌉

/-- Embedding of `pygame.Rect`: integer position and size. -/
structure Rect where
  x : ℤ
  y : ℤ
  w : ℤ
  h : ℤ
deriving DecidableEq

/-- Embedding of `pygame.Rect.colliderect`: strict axis-aligned overlap, rectangles that
merely touch at an edge do not collide. -/
def Rect.colliderect (a b : Rect) : Bool :=
  decide (a.x < b.x + b.w) && decide (a.y < b.y + b.h) &&
  decide (b.x < a.x + a.w) && decide (b.y < a.y + a.h)

/-- Class `Bird` of `src/game.py`. -/
structure Bird where
  x : ℚ
  y : ℚ
  velocity : ℚ
  gravity : ℚ
  jump_strength : ℚ
  size : ℤ
deriving DecidableEq

/-- Source `Bird.__init__`: `x = 80`, `y = HEIGHT // 2`, `velocity = 0`,
`gravity = 0.5`, `jump_strength = -10`, `size = 30`. -/
def Bird.start : Bird :=
  { x := 80, y := 300, velocity := 0, gravity := 1/2, jump_strength := -10, size := 30 }

/-- Source `Bird.jump`: `velocity = jump_strength`. -/
def Bird.jump (b : Bird) : Bird := { b with velocity := b.jump_strength }

/-- Source `Bird.update`: `velocity += gravity; y += velocity`. -/
def Bird.update (b : Bird) : Bird :=
  { b with velocity := b.velocity + b.gravity, y := b.y + (b.velocity + b.gravity) }

/-- Source `Bird.get_rect`: `pygame.Rect(x - size // 2, y - size // 2, size, size)`
(the rational corner coordinates are truncated by `pygame.Rect`). -/
def Bird.get_rect (b : Bird) : Rect :=
  { x := ratTrunc (b.x - ((Int.fdiv b.size 2 : ℤ) : ℚ)),
    y := ratTrunc (b.y - ((Int.fdiv b.size 2 : ℤ) : ℚ)),
    w := b.size, h := b.size }

/-- Class `Pipe` of `src/game.py`. -/
structure Pipe where
  x : ℚ
  width : ℤ
  gap : ℤ
  top_height : ℤ
  speed : ℚ
  passed : Bool
deriving DecidableEq

/-- Embedding of `random.randint(a, b)`: an inclusive uniform draw, modelled by the
external draw `r`; raises (here: `none`) exactly when `a > b`. -/
def randint (a b : ℤ) (r : ℕ) : Option ℤ :=
  if a ≤ b then some (a + (r : ℤ) % (b - a + 1)) else none

/-- Source `Pipe.__init__(x, gap)`: `width = 70`,
`top_height = random.randint(100, HEIGHT - gap - 100)`, `speed = 3`,
`passed = False`. -/
def Pipe.mkPipe (x : ℚ) (gap : ℤ) (r : ℕ) : Option Pipe :=
  (randint 100 (HEIGHT - gap - 100) r).map
    (fun th => { x := x, width := 70, gap := gap, top_height := th, speed := 3, passed := false })

/-- Source `Pipe.update`: `x -= speed`. -/
def Pipe.update (p : Pipe) : Pipe := { p with x := p.x - p.speed }

/-- The top rectangle `(x, 0, width, top_height)` of `Pipe.collides_with`. -/
def Pipe.topRect (p : Pipe) : Rect :=
  { x := ratTrunc p.x, y := 0, w := p.width, h := p.top_height }

/-- The bottom rectangle `(x, top_height + gap, width, HEIGHT - top_height - gap)`
of `Pipe.collides_with`. -/
def Pipe.bottomRect (p : Pipe) : Rect :=
  { x := ratTrunc p.x, y := p.top_height + p.gap, w := p.width,
    h := HEIGHT - p.top_height - p.gap }

/-- Source `Pipe.collides_with(bird)`: the bird rectangle overlaps the top or the
bottom pipe rectangle. -/
def Pipe.collides_with (p : Pipe) (b : Bird) : Bool :=
  b.get_rect.colliderect p.topRect || b.get_rect.colliderect p.bottomRect

/-- Source `Pipe.off_screen`: `x + width < 0`. -/
def Pipe.off_screen (p : Pipe) : Bool := decide (p.x + (p.width : ℚ) < 0)

/-- Class `FlappyBirdGame` of `src/game.py` (the simulation fields; the
rendering handles are omitted). -/
structure Game where
  pipe_distance : ℚ
  pipe_gap : ℤ
  speed_increase_rate : ℚ
  base_speed : ℚ
  bird : Bird
  pipes : List Pipe
  score : ℤ
  game_over : Bool
  current_speed : ℚ
  frames_elapsed : ℕ
deriving DecidableEq

/-- The five-component state tuple returned by `FlappyBirdGame.get_state`. -/
abbrev GState := ℚ × ℚ × ℚ × ℚ × ℚ

/-- Source `FlappyBirdGame.get_state`: the first pipe with `x + width > bird.x`
supplies the last three components, else the fallback
`(WIDTH, HEIGHT // 2, HEIGHT)`. -/
def Game.get_state (g : Game) : GState :=
  match g.pipes.find? (fun p => decide (g.bird.x < p.x + (p.width : ℚ))) with
  | some p =>
      (g.bird.y, g.bird.velocity, p.x - g.bird.x, (p.top_height : ℚ),
        ((p.top_height : ℚ) + (p.gap : ℚ)))
  | none =>
      (g.bird.y, g.bird.velocity, (WIDTH : ℚ), ((Int.fdiv HEIGHT 2 : ℤ) : ℚ), (HEIGHT : ℚ))

/-- One iteration of the pipe loop body of `FlappyBirdGame.step` on a single
pipe: `pipe.speed = current_speed; pipe.update()`. -/
def pipeAdvance (s : ℚ) (p : Pipe) : Pipe := { p with speed := s, x := p.x - s }

/-- The pipe loop of `FlappyBirdGame.step`: each pipe in order is advanced,
checked for collision (stopping the loop at the first hit, later pipes
untouched), and otherwise pass-checked (`passed = True`, `score += 1` when
`x + width < bird.x` first holds).  Returns the resulting pipe list, the
total score increment, and whether a collision stopped the loop. -/
def processPipes (b : Bird) (s : ℚ) : List Pipe → List Pipe × ℕ × Bool
  | [] => ([], 0, false)
  | p :: rest =>
    let p1 := pipeAdvance s p
    if p1.collides_with b then
      (p1 :: rest, 0, true)
    else
      let pr := if !p1.passed && decide (p1.x + (p1.width : ℚ) < b.x)
        then ({ p1 with passed := true }, 1)
        else (p1, 0)
      let t := processPipes b s rest
      (pr.1 :: t.1, pr.2 + t.2.1, t.2.2)

/-- The bird after the action-processing and `bird.update()` phase of
`FlappyBirdGame.step`: jump exactly when `action == 1`, then update. -/
def Game.stepBird (g : Game) (action : ℤ) : Bird :=
  Bird.update (if action = 1 then g.bird.jump else g.bird)

/-- The speed recomputed by `FlappyBirdGame.step`:
`base_speed + (frames_elapsed / FPS) * speed_increase_rate` with the already
incremented frame counter. -/
def Game.stepSpeed (g : Game) : ℚ :=
  g.base_speed + (((g.frames_elapsed : ℚ) + 1) / (FPS : ℚ)) * g.speed_increase_rate

/-- The tail of `FlappyBirdGame.step` after pipe removal and spawning: the
vertical bounds check (`y > HEIGHT or y < 0` ends the game with reward
`-1000`), else reward `1` and `done = False`. -/
def Game.boundsCheck (g : Game) : Except Unit (Game × GState × ℤ × Bool) :=
  if g.bird.y > (HEIGHT : ℚ) ∨ g.bird.y < 0 then
    let g2 := { g with game_over := true }
    .ok (g2, g2.get_state, -1000, true)
  else
    .ok (g, g.get_state, 1, false)

/-- Source `FlappyBirdGame.step(action)` from `src/game.py`, with the random draw
for a possibly spawned pipe passed in as `r`. -/
def Game.step (g : Game) (action : ℤ) (r : ℕ) : Except Unit (Game × GState × ℤ × Bool) :=
  let b2 := g.stepBird action
  let sp := g.stepSpeed
  match processPipes b2 sp g.pipes with
  | (ps1, inc, true) =>
      let g2 : Game := { g with
        bird := b2
        frames_elapsed := g.frames_elapsed + 1
        current_speed := sp
        pipes := ps1
        score := g.score + (inc : ℤ)
        game_over := true }
      .ok (g2, g2.get_state, -1000, true)
  | (ps1, inc, false) =>
      let g1 : Game := { g with
        bird := b2
        frames_elapsed := g.frames_elapsed + 1
        current_speed := sp
        pipes := ps1
        score := g.score + (inc : ℤ) }
      let ps2 := ps1.filter (fun p => !p.off_screen)
      let needSpawn :=
        match ps2.getLast? with
        | none => true
        | some lastPipe => decide (lastPipe.x < (WIDTH : ℚ) - g.pipe_distance)
      if needSpawn then
        match Pipe.mkPipe (WIDTH : ℚ) g.pipe_gap r with
        | none => .error ()
        | some np => Game.boundsCheck { g1 with pipes := ps2 ++ [{ np with speed := sp }] }
      else
        Game.boundsCheck { g1 with pipes := ps2 }

/-- Source `FlappyBirdGame.reset`: fresh bird, a single pipe at `WIDTH + 200` whose
speed is `base_speed`, score `0`, `game_over = False`,
`current_speed = base_speed`, `frames_elapsed = 0`; returns the encoded
state. -/
def Game.reset (g : Game) (r : ℕ) : Except Unit (Game × GState) :=
  match Pipe.mkPipe ((WIDTH : ℚ) + 200) g.pipe_gap r with
  | none => .error ()
  | some p =>
      let g2 : Game := { g with
        bird := Bird.start
        pipes := [{ p with speed := g.base_speed }]
        score := 0
        game_over := false
        current_speed := g.base_speed
        frames_elapsed := 0 }
      .ok (g2, g2.get_state)

/-- Source `FlappyBirdGame.__init__(pipe_distance, pipe_gap, speed_increase_rate)`:
stores the configuration, sets `base_speed = 3` and calls `reset`. -/
def Game.mkGame (pd : ℚ) (gap : ℤ) (rate : ℚ) (r : ℕ) : Except Unit (Game × GState) :=
  Game.reset
    { pipe_distance := pd
      pipe_gap := gap
      speed_increase_rate := rate
      base_speed := 3
      bird := Bird.start
      pipes := []
      score := 0
      game_over := false
      current_speed := 3
      frames_elapsed := 0 } r

/-- Iterated stepping with an arbitrary list of `(action, draw)` inputs,
propagating a spawn failure. -/
def Game.runSteps (g : Game) : List (ℤ × ℕ) → Except Unit Game
  | [] => .ok g
  | ar :: rest =>
      match g.step ar.1 ar.2 with
      | .error e => .error e
      | .ok t => t.1.runSteps rest

/-- Iterated stepping with the NO_OP action `0`, the draw for step `n` being
`rs n`. -/
def Game.noOpIter (g : Game) (rs : ℕ → ℕ) : ℕ → Except Unit Game
  | 0 => .ok g
  | n + 1 =>
      match g.noOpIter rs n with
      | .error e => .error e
      | .ok h =>
          match h.step 0 (rs n) with
          | .error e => .error e
          | .ok t => .ok t.1

/-- Equality on `Except` results is decidable componentwise. -/
instance {ε α : Type} [DecidableEq ε] [DecidableEq α] : DecidableEq (Except ε α) := fun x y =>
  match x, y with
  | .error a, .error b =>
      if h : a = b then .isTrue (by rw [h]) else .isFalse (by simp [h])
  | .ok a, .ok b =>
      if h : a = b then .isTrue (by rw [h]) else .isFalse (by simp [h])
  | .error _, .ok _ => .isFalse (by simp)
  | .ok _, .error _ => .isFalse (by simp)

/-- Registered intermediate instance so that equality of full step results is
decidable. -/
instance : DecidableEq (GState × ℤ × Bool) := inferInstance

/-- Registered instance for equality of full step results. -/
instance : DecidableEq (Game × GState × ℤ × Bool) := inferInstance

/-- Strict axis-aligned overlap of two rectangles given by exact rational
corner data; claim C5's wording of the box test (touching edges do not
overlap). -/
def rectOverlapQ (x1 y1 w1 h1 x2 y2 w2 h2 : ℚ) : Bool :=
  decide (x1 < x2 + w2) && decide (y1 < y2 + h2) &&
  decide (x2 < x1 + w1) && decide (y2 < y1 + h1)

/-- Claim C5's wording of `Pipe.collides_with`: the square of side `size`
centred on `(x, y)` against the two pipe rectangles, in exact rational
coordinates (no truncation). -/
def Pipe.collidesWithSpec (p : Pipe) (b : Bird) : Bool :=
  rectOverlapQ (b.x - (b.size : ℚ)/2) (b.y - (b.size : ℚ)/2) (b.size : ℚ) (b.size : ℚ)
    p.x 0 (p.width : ℚ) (p.top_height : ℚ) ||
  rectOverlapQ (b.x - (b.size : ℚ)/2) (b.y - (b.size : ℚ)/2) (b.size : ℚ) (b.size : ℚ)
    p.x ((p.top_height : ℚ) + (p.gap : ℚ)) (p.width : ℚ)
    ((HEIGHT : ℚ) - (p.top_height : ℚ) - (p.gap : ℚ))

/-- Claim C2's wording of `get_state`: the next pipe is the first one whose
right edge is at or ahead of the bird's x (`x + width ≥ bird.x`, a non-strict
comparison). -/
def Game.get_state_claim (g : Game) : GState :=
  match g.pipes.find? (fun p => decide (g.bird.x ≤ p.x + (p.width : ℚ))) with
  | some p =>
      (g.bird.y, g.bird.velocity, p.x - g.bird.x, (p.top_height : ℚ),
        ((p.top_height : ℚ) + (p.gap : ℚ)))
  | none =>
      (g.bird.y, g.bird.velocity, (WIDTH : ℚ), ((Int.fdiv HEIGHT 2 : ℤ) : ℚ), (HEIGHT : ℚ))

/-- Test fixture: a running game with one pipe just short of being passed and
a second pipe about to collide with the bird. -/
def gC1 : Game :=
  { pipe_distance := 300
    pipe_gap := 200
    speed_increase_rate := 0
    base_speed := 3
    bird := Bird.start
    pipes := [{ x := -65, width := 70, gap := 200, top_height := 100, speed := 3, passed := false },
              { x := 81, width := 70, gap := 200, top_height := 300, speed := 3, passed := false }]
    score := 5
    game_over := false
    current_speed := 3
    frames_elapsed := 0 }

/-- The pipe list `processPipes` produces on `gC1`'s step: the first pipe
advanced and marked passed, the second advanced and colliding. -/
def psC1 : List Pipe :=
  [{ x := -68, width := 70, gap := 200, top_height := 100, speed := 3, passed := true },
   { x := 78, width := 70, gap := 200, top_height := 300, speed := 3, passed := false }]

/-- Test fixture: a game whose single pipe has its right edge exactly at the
bird's x (`10 + 70 = 80`). -/
def gC2 : Game :=
  { pipe_distance := 300
    pipe_gap := 200
    speed_increase_rate := 0
    base_speed := 3
    bird := Bird.start
    pipes := [{ x := 10, width := 70, gap := 200, top_height := 200, speed := 3, passed := false }]
    score := 0
    game_over := false
    current_speed := 3
    frames_elapsed := 0 }

/-- Test fixture: a bird at fractional height `285.5`, whose exact box bottom
`300.5` dips into the bottom pipe of `pC5` while the truncated box does not. -/
def bC5 : Bird := { Bird.start with y := 571/2 }

/-- Test fixture: a pipe overlapping the bird's x-range with its gap between
heights 100 and 300. -/
def pC5 : Pipe :=
  { x := 40, width := 70, gap := 200, top_height := 100, speed := 3, passed := false }

/-- Test fixture: a game already in the OVER state with a distant pipe. -/
def gOverW : Game :=
  { pipe_distance := 300
    pipe_gap := 200
    speed_increase_rate := 0
    base_speed := 3
    bird := Bird.start
    pipes := [{ x := 600, width := 70, gap := 200, top_height := 107, speed := 3, passed := false }]
    score := 0
    game_over := true
    current_speed := 3
    frames_elapsed := 0 }

/-- The game `gOverW.step 0 0` produces: the bird fell half a unit, the pipe
scrolled to `597`, the OVER flag untouched. -/
def gOverW2 : Game :=
  { gOverW with
    bird := { Bird.start with y := 601/2, velocity := 1/2 }
    pipes := [{ x := 597, width := 70, gap := 200, top_height := 107, speed := 3, passed := false }]
    frames_elapsed := 1 }

/-- Test fixture: `gOverW` with the game still running. -/
def gW8 : Game := { gOverW with game_over := false }

/-- The game `gW8.step 0 0` produces. -/
def gW8b : Game := { gOverW2 with game_over := false }

/-- Test fixture: a running game with no pipes and the bird already below the
screen before the step's position update. -/
def gW7 : Game :=
  { pipe_distance := 300
    pipe_gap := 200
    speed_increase_rate := 0
    base_speed := 3
    bird := { Bird.start with y := 650 }
    pipes := []
    score := 0
    game_over := false
    current_speed := 3
    frames_elapsed := 0 }

/-- Test fixture: a running game with one already-passed pipe close enough to
the left edge that the next step spawns a new pipe. -/
def gW9 : Game :=
  { pipe_distance := 300
    pipe_gap := 200
    speed_increase_rate := 0
    base_speed := 3
    bird := Bird.start
    pipes := [{ x := 50, width := 70, gap := 200, top_height := 150, speed := 3, passed := true }]
    score := 2
    game_over := false
    current_speed := 3
    frames_elapsed := 10 }

/-- The game `gW9.step 0 7` produces: the old pipe scrolled to `47` and a new
pipe spawned at `x = 400` with `top_height = 107` (draw `7`). -/
def gW9b : Game :=
  { gW9 with
    bird := { Bird.start with y := 601/2, velocity := 1/2 }
    pipes := [{ x := 47, width := 70, gap := 200, top_height := 150, speed := 3, passed := true },
              { x := 400, width := 70, gap := 200, top_height := 107, speed := 3, passed := false }]
    frames_elapsed := 11 }

/-- Test fixture: a single unpassed pipe whose advanced position first puts
its trailing edge left of the bird. -/
def pW6 : Pipe :=
  { x := 10, width := 70, gap := 200, top_height := 150, speed := 3, passed := false }

/-- The pipe `processPipes` produces from `pW6`: advanced to `7` and marked
passed. -/
def pW6b : Pipe :=
  { x := 7, width := 70, gap := 200, top_height := 150, speed := 3, passed := true }

/-- A constant draw sequence for iterated stepping. -/
def rsZero : ℕ → ℕ := fun _ => 0

/-- Test fixture: a pipe fully behind the bird (right edge `75 < 80`). -/
def pA : Pipe :=
  { x := 5, width := 70, gap := 200, top_height := 120, speed := 3, passed := true }

/-- Test fixture: a pipe ahead of the bird. -/
def pB : Pipe :=
  { x := 100, width := 70, gap := 200, top_height := 130, speed := 3, passed := false }

/-- Test fixture: a game with one passed pipe behind the bird and one pipe
ahead of it. -/
def gW2 : Game :=
  { pipe_distance := 300
    pipe_gap := 200
    speed_increase_rate := 0
    base_speed := 3
    bird := Bird.start
    pipes := [pA, pB]
    score := 1
    game_over := false
    current_speed := 3
    frames_elapsed := 4 }

/-- C3: whenever `pipe_gap > HEIGHT - 200` (so the `randint` interval
`[100, HEIGHT - gap - 100]` is empty), constructing the game fails at
construction time — `FlappyBirdGame.__init__` calls `reset`, whose first
pipe construction raises — and no game object is produced. -/
theorem claim3_invalid_gap_rejected (pd : ℚ) (gap : ℤ) (rate : ℚ) (r : ℕ)
    (h : HEIGHT - 200 < gap) :
    Game.mkGame pd gap rate r = .error () := by
  have hno : ¬ (100 ≤ HEIGHT - gap - 100) := by
    simp only [HEIGHT] at h ⊢; omega
  simp [Game.mkGame, Game.reset, Pipe.mkPipe, randint, hno]

/-- C3 witness: `pipe_gap = 401` exceeds `HEIGHT - 200 = 400` and the
construction indeed fails. -/
theorem claim3_witness :
    HEIGHT - 200 < (401 : ℤ) ∧ Game.mkGame 300 401 0 0 = .error () :=
  ⟨by decide, claim3_invalid_gap_rejected 300 401 0 0 (by decide)⟩

/-- C10: `step` treats every action other than `1` exactly like `0` — the
jump is invoked if and only if the action equals `1` — and no action value is
rejected. -/
theorem claim10_action_binary (g : Game) (a : ℤ) (r : ℕ) (h : a ≠ 1) :
    g.step a r = g.step 0 r ∧ g.stepBird a = g.bird.update ∧
    g.stepBird 1 = g.bird.jump.update := by
  have h0 : (0 : ℤ) ≠ 1 := by decide
  have hb : g.stepBird a = g.bird.update := by
    unfold Game.stepBird; rw [if_neg h]
  have hb0 : g.stepBird 0 = g.bird.update := by
    unfold Game.stepBird; rw [if_neg h0]
  refine ⟨?_, hb, ?_⟩
  · unfold Game.step; rw [hb, hb0]
  · unfold Game.stepBird; rw [if_pos rfl]

/-- C10 witness: action `2` behaves like action `0` on a concrete game. -/
theorem claim10_witness :
    (2 : ℤ) ≠ 1 ∧ gC2.step 2 0 = gC2.step 0 0 :=
  ⟨by decide, (claim10_action_binary gC2 2 0 (by decide)).1⟩

/-- C1 counterexample: in `gC1`'s step the second pipe collides (the loop
flag is `true`, the step returns reward `-1000` and `done = true`), yet the
score still rises from `5` to `6`, because the first pipe was pass-checked
and scored before the colliding pipe was reached.  This refutes "the score
is unchanged in any step that ends in a collision". -/
theorem claim1_counterexample :
    (processPipes (gC1.stepBird 0) gC1.stepSpeed gC1.pipes).2.2 = true ∧
    gC1.score = 5 ∧
    (gC1.step 0 0).map (fun t => (t.1.score, t.2.2.1, t.2.2.2)) = .ok (6, -1000, true) := by
  with_unfolding_all decide

/-- C2 counterexample: `gC2`'s only pipe has its right edge exactly at the
bird's x, so under the claim's "at or ahead" (non-strict) reading it is the
next pipe, but the code's strict `>` skips it and returns the no-pipe
fallback. -/
theorem claim2_counterexample :
    gC2.pipes.map (fun p => decide (p.x + (p.width : ℚ) = gC2.bird.x)) = [true] ∧
    gC2.get_state = (300, 0, 400, 300, 600) ∧
    Game.get_state_claim gC2 = (300, 0, -70, 200, 400) ∧
    gC2.get_state ≠ Game.get_state_claim gC2 := by
  with_unfolding_all decide

/-- C5 counterexample: at the fractional bird height `285.5` the exact box
test of the claim reports a collision with the bottom pipe (box bottom
`300.5` against pipe top `300`) while the code, after `pygame.Rect`'s
integer truncation, reports none. -/
theorem claim5_counterexample :
    pC5.collides_with bC5 = false ∧ Pipe.collidesWithSpec pC5 bC5 = true := by
  with_unfolding_all decide

/-- Claim C9's pipe-list invariant: non-empty and strictly increasing `x`
left to right (so the last element is the rightmost pipe). -/
def pipesOrdered (l : List Pipe) : Prop :=
  l ≠ [] ∧ (l.map Pipe.x).Pairwise (· < ·)

instance (l : List Pipe) : Decidable (pipesOrdered l) :=
  decidable_of_iff (l ≠ [] ∧ (l.map Pipe.x).Pairwise (· < ·)) Iff.rfl

/-- Unfolding `Bird.update` componentwise. -/
lemma Bird.update_def (b : Bird) :
    b.update.y = b.y + (b.velocity + b.gravity) ∧
    b.update.velocity = b.velocity + b.gravity ∧
    b.update.gravity = b.gravity := by
  simp [Bird.update]

/-- Lemma: `stepBird` with the NO_OP action is just `Bird.update`. -/
lemma stepBird_zero (g : Game) : g.stepBird 0 = g.bird.update := by
  unfold Game.stepBird
  rw [if_neg (by decide : (0 : ℤ) ≠ 1)]

/-- Inversion of a successful `step`: the produced game carries the updated
bird, the bumped frame counter and speed, never clears the OVER flag, never
decreases the score, and the returned state is the produced game's encoded
state. -/
lemma step_ok_inv {g : Game} {a : ℤ} {r : ℕ} {res : Game × GState × ℤ × Bool}
    (h : g.step a r = .ok res) :
    res.1.bird = g.stepBird a ∧ res.1.frames_elapsed = g.frames_elapsed + 1 ∧
    res.1.current_speed = g.stepSpeed ∧ (g.game_over = true → res.1.game_over = true) ∧
    g.score ≤ res.1.score ∧ res.2.1 = res.1.get_state := by
  have hinc : ∀ k : ℕ, g.score ≤ g.score + (k : ℤ) :=
    fun k => le_add_of_nonneg_right (Int.natCast_nonneg k)
  simp only [Game.step] at h
  split at h
  · simp only [Except.ok.injEq] at h
    subst h
    simpa using ⟨hinc _, fun hov => hov⟩
  · simp only [Game.boundsCheck] at h
    split at h
    · split at h
      · exact absurd h (by simp)
      · split at h <;>
        · simp only [Except.ok.injEq] at h
          subst h
          simpa using ⟨hinc _, fun hov => hov⟩
    · split at h <;>
      · simp only [Except.ok.injEq] at h
        subst h
        simpa using ⟨hinc _, fun hov => hov⟩

/-- C4: the OVER state is terminal under `step` — a step never clears
`game_over`, across any sequence of steps — and only `reset` returns the
game to RUNNING (`game_over = False`). -/
theorem claim4_over_terminal :
    (∀ (g : Game) (a : ℤ) (r : ℕ) (res : Game × GState × ℤ × Bool),
        Game.step g a r = .ok res → g.game_over = true → res.1.game_over = true) ∧
    (∀ (g : Game) (acts : List (ℤ × ℕ)) (g' : Game),
        Game.runSteps g acts = .ok g' → g.game_over = true → g'.game_over = true) ∧
    (∀ (g : Game) (r : ℕ) (res : Game × GState),
        Game.reset g r = .ok res → res.1.game_over = false) := by
  have hstep : ∀ (g : Game) (a : ℤ) (r : ℕ) (res : Game × GState × ℤ × Bool),
      Game.step g a r = .ok res → g.game_over = true → res.1.game_over = true :=
    fun g a r res h => (step_ok_inv h).2.2.2.1
  have hrun : ∀ (acts : List (ℤ × ℕ)) (g g' : Game),
      Game.runSteps g acts = .ok g' → g.game_over = true → g'.game_over = true := by
    intro acts
    induction acts with
    | nil =>
        intro g g' h hov
        simp only [Game.runSteps, Except.ok.injEq] at h
        exact h ▸ hov
    | cons ar rest ih =>
        intro g g' h hov
        simp only [Game.runSteps] at h
        split at h
        · exact absurd h (by simp)
        · next t heq => exact ih t.1 g' h (hstep g ar.1 ar.2 t heq hov)
  refine ⟨hstep, fun g acts g' h hov => hrun acts g g' h hov, ?_⟩
  · intro g r res h
    simp only [Game.reset] at h
    split at h
    · exact absurd h (by simp)
    · simp only [Except.ok.injEq] at h
      subst h
      simp

/-- C4 witness: a concrete step from an OVER-state game keeps `game_over`
set. -/
theorem claim4_witness :
    gOverW.game_over = true ∧
    gOverW.step 0 0 = .ok (gOverW2, (601/2, 1/2, 517, 107, 307), 1, false) ∧
    gOverW2.game_over = true :=
  ⟨rfl, by with_unfolding_all decide,
    claim4_over_terminal.1 gOverW 0 0 (gOverW2, (601/2, 1/2, 517, 107, 307), 1, false)
      (by with_unfolding_all decide) rfl⟩

/-- Along a NO_OP run the bird's velocity stays nonnegative and its gravity
field is untouched. -/
lemma noOpIter_ok_velocity (g : Game) (rs : ℕ → ℕ) (h0 : 0 ≤ g.bird.velocity)
    (hgrav : 0 ≤ g.bird.gravity) :
    ∀ (n : ℕ) (g1 : Game), g.noOpIter rs n = .ok g1 →
      0 ≤ g1.bird.velocity ∧ g1.bird.gravity = g.bird.gravity := by
  intro n
  induction n with
  | zero =>
      intro g1 h
      simp only [Game.noOpIter, Except.ok.injEq] at h
      subst h
      exact ⟨h0, rfl⟩
  | succ n ih =>
      intro g1 h
      simp only [Game.noOpIter] at h
      split at h
      · exact absurd h (by simp)
      · next gmid hmid =>
          split at h
          · exact absurd h (by simp)
          · next t hstep =>
              simp only [Except.ok.injEq] at h
              subst h
              obtain ⟨hv, hg⟩ := ih gmid hmid
              have hb := (step_ok_inv hstep).1
              rw [stepBird_zero] at hb
              rw [hb]
              obtain ⟨-, hvel, hgr⟩ := Bird.update_def gmid.bird
              constructor
              · rw [hvel]
                have : (0 : ℚ) ≤ gmid.bird.gravity := hg ▸ hgrav
                linarith
              · rw [hgr, hg]

/-- C8: starting from any state with nonnegative bird velocity (after
`reset` the velocity is `0`) and positive gravity (the source constant is
`0.5`), every NO_OP step strictly increases the bird's `y`. -/
theorem claim8_gravity_descent (g : Game) (rs : ℕ → ℕ) (h0 : 0 ≤ g.bird.velocity)
    (hg : 0 < g.bird.gravity) (n : ℕ) (g1 g2 : Game)
    (h1 : g.noOpIter rs n = .ok g1) (h2 : g.noOpIter rs (n + 1) = .ok g2) :
    g1.bird.y < g2.bird.y := by
  obtain ⟨hv1, hgr1⟩ := noOpIter_ok_velocity g rs h0 (le_of_lt hg) n g1 h1
  simp only [Game.noOpIter, h1] at h2
  cases hstep : g1.step 0 (rs n) with
  | error e => simp [hstep] at h2
  | ok t =>
      simp only [hstep, Except.ok.injEq] at h2
      subst h2
      have hb := (step_ok_inv hstep).1
      rw [stepBird_zero] at hb
      rw [hb]
      obtain ⟨hy, -, -⟩ := Bird.update_def g1.bird
      rw [hy, hgr1]
      linarith

/-- C8 witness: one NO_OP step from `gW8` (bird mid-screen, zero velocity)
strictly lowers the bird on screen, i.e. increases `y` from `300` to
`300.5`. -/
theorem claim8_witness :
    0 ≤ gW8.bird.velocity ∧ 0 < gW8.bird.gravity ∧
    gW8.noOpIter rsZero 0 = .ok gW8 ∧ gW8.noOpIter rsZero 1 = .ok gW8b ∧
    gW8.bird.y < gW8b.bird.y :=
  ⟨by with_unfolding_all decide, by with_unfolding_all decide, rfl,
    by with_unfolding_all decide,
    claim8_gravity_descent gW8 rsZero (by with_unfolding_all decide)
      (by with_unfolding_all decide) 0 gW8 gW8b rfl
      (by with_unfolding_all decide)⟩

/-- C7: in a step whose pipe loop finds no collision (and whose
configuration admits pipe construction, as any constructed game's does), if
the updated bird's `y` is strictly above `HEIGHT` or strictly below `0` at
the bounds check, the step sets `game_over`, and returns the encoded state
with reward `-1000` and `done = true` — whatever the pipe list, including an
empty one. -/
theorem claim7_out_of_bounds (g : Game) (a : ℤ) (r : ℕ) (ps1 : List Pipe) (inc : ℕ)
    (hnc : processPipes (g.stepBird a) g.stepSpeed g.pipes = (ps1, inc, false))
    (hgap : g.pipe_gap ≤ HEIGHT - 200)
    (hy : (HEIGHT : ℚ) < (g.stepBird a).y ∨ (g.stepBird a).y < 0) :
    (g.step a r).map
        (fun t => (t.1.game_over, decide (t.2.1 = t.1.get_state), t.2.2.1, t.2.2.2))
      = .ok (true, true, -1000, true) := by
  have hge : (100 : ℤ) ≤ HEIGHT - g.pipe_gap - 100 := by
    simp only [HEIGHT] at hgap ⊢; omega
  simp only [Game.step, hnc]
  split
  · split
    · next hmk =>
        exfalso
        revert hmk
        unfold Pipe.mkPipe randint
        rw [if_pos hge]
        simp
    · next np hmk =>
        simp [Game.boundsCheck, hy, Except.map]
  · simp [Game.boundsCheck, hy, Except.map]

/-- C7 witness: a game with zero pipes whose bird is below the screen after
the update; the step reports OVER with reward `-1000`. -/
theorem claim7_witness :
    processPipes (gW7.stepBird 0) gW7.stepSpeed gW7.pipes = ([], 0, false) ∧
    gW7.pipe_gap ≤ HEIGHT - 200 ∧
    ((HEIGHT : ℚ) < (gW7.stepBird 0).y ∨ (gW7.stepBird 0).y < 0) ∧
    (gW7.step 0 7).map
        (fun t => (t.1.game_over, decide (t.2.1 = t.1.get_state), t.2.2.1, t.2.2.2))
      = .ok (true, true, -1000, true) :=
  ⟨by with_unfolding_all decide, by decide,
    by with_unfolding_all decide,
    claim7_out_of_bounds gW7 0 7 [] 0 (by with_unfolding_all decide) (by decide)
      (by with_unfolding_all decide)⟩

/-- Every pair drawn from a list zipped with itself is a pair of equals. -/
lemma zip_self_fst_eq_snd : ∀ (l : List Pipe) (q : Pipe × Pipe), q ∈ l.zip l → q.1 = q.2 := by
  intro l
  induction l with
  | nil => intro q hq; simp at hq
  | cons p rest ih =>
      intro q hq
      rw [List.zip_cons_cons, List.mem_cons] at hq
      rcases hq with hq | hq
      · rw [hq]
      · exact ih q hq

/-- On a list zipped with itself no pair witnesses a freshly set `passed`
flag. -/
lemma zip_self_countP_zero (l : List Pipe) :
    (l.zip l).countP (fun q => !q.1.passed && q.2.passed) = 0 := by
  rw [List.countP_eq_zero]
  intro q hq
  rw [zip_self_fst_eq_snd l q hq]
  simp

/-- C6: the score increment of a pipe loop equals the number of pipes whose
`passed` flag flipped from unset to set in that loop; a set flag is never
cleared; a flag flips only when the advanced pipe's trailing edge is strictly
left of the bird's x; in a loop without collision the flip happens whenever
that condition holds for a previously unpassed pipe; and a successful `step`
never decreases the score.  Together: each pipe scores exactly once, in the
first step whose completed scoring phase sees its trailing edge strictly left
of the bird, and the score is monotone within an episode. -/
theorem claim6_scoring (b : Bird) (s : ℚ) :
    (∀ (ps ps' : List Pipe) (inc : ℕ) (c : Bool), processPipes b s ps = (ps', inc, c) →
      (inc = (ps.zip ps').countP (fun q => !q.1.passed && q.2.passed)) ∧
      (∀ q ∈ ps.zip ps', q.1.passed = true → q.2.passed = true) ∧
      (∀ q ∈ ps.zip ps', q.1.passed = false → q.2.passed = true →
          q.2.x + (q.2.width : ℚ) < b.x) ∧
      (c = false → ∀ q ∈ ps.zip ps', q.1.passed = false →
          q.2.x + (q.2.width : ℚ) < b.x → q.2.passed = true)) ∧
    (∀ (g : Game) (a : ℤ) (r : ℕ) (res : Game × GState × ℤ × Bool),
        Game.step g a r = .ok res → g.score ≤ res.1.score) := by
  constructor
  · intro ps
    induction ps with
    | nil =>
        intro ps' inc c h
        simp only [processPipes, Prod.mk.injEq] at h
        obtain ⟨h1, h2, h3⟩ := h
        subst h1; subst h2; subst h3
        simp
    | cons p rest ih =>
        intro ps' inc c h
        simp only [processPipes] at h
        by_cases hcol : (pipeAdvance s p).collides_with b = true
        · rw [if_pos hcol] at h
          simp only [Prod.mk.injEq] at h
          obtain ⟨h1, h2, h3⟩ := h
          subst h1; subst h2; subst h3
          refine ⟨?_, ?_, ?_, ?_⟩
          · rw [List.zip_cons_cons, List.countP_cons]
            have hps : (pipeAdvance s p).passed = p.passed := rfl
            simp [hps, zip_self_countP_zero]
          · intro q hq hp1
            rw [List.zip_cons_cons, List.mem_cons] at hq
            rcases hq with hq | hq
            · subst hq; exact hp1
            · rw [zip_self_fst_eq_snd rest q hq] at hp1; exact hp1
          · intro q hq hp0 hp1
            rw [List.zip_cons_cons, List.mem_cons] at hq
            rcases hq with hq | hq
            · subst hq
              have hp1p : p.passed = true := hp1
              have hp0p : p.passed = false := hp0
              rw [hp0p] at hp1p
              exact absurd hp1p (by simp)
            · rw [zip_self_fst_eq_snd rest q hq] at hp0
              rw [hp0] at hp1
              exact absurd hp1 (by simp)
          · intro hcf
            exact absurd hcf (by simp)
        · rw [if_neg hcol] at h
          rcases ht : processPipes b s rest with ⟨ps₂, inc₂, cc⟩
          rw [ht] at h
          obtain ⟨ih1, ih2, ih3, ih4⟩ := ih ps₂ inc₂ cc ht
          by_cases hpass : (!(pipeAdvance s p).passed &&
              decide ((pipeAdvance s p).x + ((pipeAdvance s p).width : ℚ) < b.x)) = true
          · rw [if_pos hpass] at h
            simp only [Prod.mk.injEq] at h
            obtain ⟨h1, h2, h3⟩ := h
            subst h1; subst h2; subst h3
            rw [Bool.and_eq_true, Bool.not_eq_true', decide_eq_true_eq] at hpass
            obtain ⟨hnp, hlt⟩ := hpass
            have hnp' : p.passed = false := hnp
            refine ⟨?_, ?_, ?_, ?_⟩
            · rw [List.zip_cons_cons, List.countP_cons]
              simp only [ih1]
              simp [hnp']
              omega
            · intro q hq hp1
              rw [List.zip_cons_cons, List.mem_cons] at hq
              rcases hq with hq | hq
              · subst hq; rfl
              · exact ih2 q hq hp1
            · intro q hq hp0 hp1
              rw [List.zip_cons_cons, List.mem_cons] at hq
              rcases hq with hq | hq
              · subst hq; exact hlt
              · exact ih3 q hq hp0 hp1
            · intro hcf q hq hp0 hlt2
              rw [List.zip_cons_cons, List.mem_cons] at hq
              rcases hq with hq | hq
              · subst hq; rfl
              · exact ih4 hcf q hq hp0 hlt2
          · rw [if_neg hpass] at h
            simp only [Prod.mk.injEq] at h
            obtain ⟨h1, h2, h3⟩ := h
            subst h1; subst h2; subst h3
            have hps : (pipeAdvance s p).passed = p.passed := rfl
            refine ⟨?_, ?_, ?_, ?_⟩
            · rw [List.zip_cons_cons, List.countP_cons]
              simp [hps, ih1]
            · intro q hq hp1
              rw [List.zip_cons_cons, List.mem_cons] at hq
              rcases hq with hq | hq
              · subst hq; exact hp1
              · exact ih2 q hq hp1
            · intro q hq hp0 hp1
              rw [List.zip_cons_cons, List.mem_cons] at hq
              rcases hq with hq | hq
              · subst hq
                have hp1p : p.passed = true := hp1
                have hp0p : p.passed = false := hp0
                rw [hp0p] at hp1p
                exact absurd hp1p (by simp)
              · exact ih3 q hq hp0 hp1
            · intro hcf q hq hp0 hlt2
              rw [List.zip_cons_cons, List.mem_cons] at hq
              rcases hq with hq | hq
              · exfalso
                subst hq
                have hpf : (pipeAdvance s p).passed = false := hp0
                have hltp : (pipeAdvance s p).x + ((pipeAdvance s p).width : ℚ) < b.x := hlt2
                apply hpass
                rw [Bool.and_eq_true, Bool.not_eq_true']
                exact ⟨hpf, decide_eq_true hltp⟩
              · exact ih4 hcf q hq hp0 hlt2
  · intro g a r res h
    exact (step_ok_inv h).2.2.2.2.1

/-- C6 witness: a single unpassed pipe crossing the bird's x in one loop
yields increment `1`, matching the count of freshly flipped flags. -/
theorem claim6_witness :
    processPipes Bird.start 3 [pW6] = ([pW6b], 1, false) ∧
    1 = ([pW6].zip [pW6b]).countP (fun q => !q.1.passed && q.2.passed) :=
  ⟨by with_unfolding_all decide,
    ((claim6_scoring Bird.start 3).1 [pW6] [pW6b] 1 false (by with_unfolding_all decide)).1⟩

/-- A pipe loop that reports a collision decomposes the pipe list at the
first colliding pipe: every earlier pipe does not collide after its own
update, and every later pipe is returned untouched. -/
lemma processPipes_collision (b : Bird) (s : ℚ) :
    ∀ (ps ps' : List Pipe) (inc : ℕ), processPipes b s ps = (ps', inc, true) →
      ∃ l1 p l2 l1', ps = l1 ++ p :: l2 ∧ ps' = l1' ++ pipeAdvance s p :: l2 ∧
        l1'.length = l1.length ∧ (pipeAdvance s p).collides_with b = true ∧
        ∀ q ∈ l1, (pipeAdvance s q).collides_with b = false := by
  intro ps
  induction ps with
  | nil =>
      intro ps' inc h
      simp only [processPipes, Prod.mk.injEq] at h
      exact absurd h.2.2 (by simp)
  | cons p rest ih =>
      intro ps' inc h
      simp only [processPipes] at h
      by_cases hcol : (pipeAdvance s p).collides_with b = true
      · rw [if_pos hcol] at h
        simp only [Prod.mk.injEq] at h
        obtain ⟨h1, h2, h3⟩ := h
        subst h1
        exact ⟨[], p, rest, [], rfl, rfl, rfl, hcol, by simp⟩
      · rw [if_neg hcol] at h
        rcases ht : processPipes b s rest with ⟨ps₂, inc₂, cc⟩
        rw [ht] at h
        by_cases hpass : (!(pipeAdvance s p).passed &&
            decide ((pipeAdvance s p).x + ((pipeAdvance s p).width : ℚ) < b.x)) = true
        · rw [if_pos hpass] at h
          simp only [Prod.mk.injEq] at h
          obtain ⟨h1, h2, h3⟩ := h
          subst h1
          have hcc : cc = true := h3
          subst hcc
          obtain ⟨l1, pc, l2, l1', e1, e2, e3, e4, e5⟩ := ih ps₂ inc₂ ht
          refine ⟨p :: l1, pc, l2, { pipeAdvance s p with passed := true } :: l1',
            by rw [e1]; rfl, by rw [e2]; rfl, by simp [e3], e4, ?_⟩
          intro q hq
          rcases List.mem_cons.mp hq with hq | hq
          · subst hq
            exact Bool.not_eq_true _ ▸ hcol
          · exact e5 q hq
        · rw [if_neg hpass] at h
          simp only [Prod.mk.injEq] at h
          obtain ⟨h1, h2, h3⟩ := h
          subst h1
          have hcc : cc = true := h3
          subst hcc
          obtain ⟨l1, pc, l2, l1', e1, e2, e3, e4, e5⟩ := ih ps₂ inc₂ ht
          refine ⟨p :: l1, pc, l2, pipeAdvance s p :: l1',
            by rw [e1]; rfl, by rw [e2]; rfl, by simp [e3], e4, ?_⟩
          intro q hq
          rcases List.mem_cons.mp hq with hq | hq
          · subst hq
            exact Bool.not_eq_true _ ▸ hcol
          · exact e5 q hq

/-- C1 (amended): when the pipe loop of a step reports a collision, the step
sets `game_over` and returns the encoded state with reward `-1000` and
`done = true`, the pipe list splits at the first colliding pipe in spawn
order — earlier pipes do not collide after their update, later pipes keep
their pre-step values — and the score becomes the old score plus the
loop's increment, which counts pipes passed earlier in this same step (so a
colliding step can still raise the score). -/
theorem claim1_step_collision (g : Game) (a : ℤ) (r : ℕ) (ps1 : List Pipe) (inc : ℕ)
    (h : processPipes (g.stepBird a) g.stepSpeed g.pipes = (ps1, inc, true)) :
    (g.step a r).map
        (fun t => (t.1.game_over, decide (t.2.1 = t.1.get_state), t.1.score, t.1.pipes,
          t.2.2.1, t.2.2.2))
      = .ok (true, true, g.score + (inc : ℤ), ps1, -1000, true) ∧
    ∃ l1 p l2 l1', g.pipes = l1 ++ p :: l2 ∧
      ps1 = l1' ++ pipeAdvance g.stepSpeed p :: l2 ∧ l1'.length = l1.length ∧
      (pipeAdvance g.stepSpeed p).collides_with (g.stepBird a) = true ∧
      ∀ q ∈ l1, (pipeAdvance g.stepSpeed q).collides_with (g.stepBird a) = false := by
  constructor
  · simp only [Game.step, h]
    simp [Except.map]
  · exact processPipes_collision (g.stepBird a) g.stepSpeed g.pipes ps1 inc h

/-- C1 witness: on `gC1` the loop collides at the second pipe with increment
`1` from the first, and the step returns OVER, reward `-1000`, `done`, and
score `5 + 1`. -/
theorem claim1_witness :
    processPipes (gC1.stepBird 0) gC1.stepSpeed gC1.pipes = (psC1, 1, true) ∧
    (gC1.step 0 0).map
        (fun t => (t.1.game_over, decide (t.2.1 = t.1.get_state), t.1.score, t.1.pipes,
          t.2.2.1, t.2.2.2))
      = .ok (true, true, gC1.score + ((1 : ℕ) : ℤ), psC1, -1000, true) :=
  ⟨by with_unfolding_all decide,
    (claim1_step_collision gC1 0 0 psC1 1 (by with_unfolding_all decide)).1⟩

/-- Lemma: `find?` returns the head of the first satisfying suffix. -/
lemma find?_first {α : Type} (pred : α → Bool) :
    ∀ (l1 : List α) (p : α) (l2 : List α), (∀ q ∈ l1, pred q = false) → pred p = true →
      (l1 ++ p :: l2).find? pred = some p := by
  intro l1
  induction l1 with
  | nil =>
      intro p l2 h hp
      simpa using List.find?_cons_of_pos l2 hp
  | cons a t ih =>
      intro p l2 h hp
      rw [List.cons_append, List.find?_cons_of_neg _ (by simp [h a (by simp)])]
      exact ih p l2 (fun q hq => h q (by simp [hq])) hp

/-- C2 (amended): `get_state` returns the five-tuple built from the first
pipe in spawn order whose right edge is strictly ahead of the bird's x
(`x + width > bird.x`); if no pipe's right edge is strictly ahead, it
returns the fallback `(WIDTH, HEIGHT // 2, HEIGHT)` for the last three
components.  (A pipe whose right edge is exactly at the bird's x is
skipped, unlike the claim's "at or ahead".) -/
theorem claim2_get_state (g : Game) :
    ((∀ p ∈ g.pipes, p.x + (p.width : ℚ) ≤ g.bird.x) →
        g.get_state = (g.bird.y, g.bird.velocity, (WIDTH : ℚ),
          ((Int.fdiv HEIGHT 2 : ℤ) : ℚ), (HEIGHT : ℚ))) ∧
    (∀ (l1 : List Pipe) (p : Pipe) (l2 : List Pipe), g.pipes = l1 ++ p :: l2 →
        (∀ q ∈ l1, q.x + (q.width : ℚ) ≤ g.bird.x) → g.bird.x < p.x + (p.width : ℚ) →
        g.get_state = (g.bird.y, g.bird.velocity, p.x - g.bird.x, (p.top_height : ℚ),
          (p.top_height : ℚ) + (p.gap : ℚ))) := by
  constructor
  · intro hall
    unfold Game.get_state
    have hnone : g.pipes.find? (fun p => decide (g.bird.x < p.x + (p.width : ℚ))) = none := by
      rw [List.find?_eq_none]
      intro q hq
      simp only [decide_eq_true_eq]
      exact not_lt.mpr (hall q hq)
    rw [hnone]
  · intro l1 p l2 hsplit hl1 hp
    unfold Game.get_state
    rw [hsplit, find?_first _ l1 p l2
      (fun q hq => decide_eq_false (not_lt.mpr (hl1 q hq))) (decide_eq_true hp)]

/-- C2 witness: with one passed pipe behind the bird and one ahead, the
state is built from the pipe ahead. -/
theorem claim2_witness :
    gW2.pipes = [pA] ++ pB :: [] ∧
    (∀ q ∈ [pA], q.x + (q.width : ℚ) ≤ gW2.bird.x) ∧
    gW2.bird.x < pB.x + (pB.width : ℚ) ∧
    gW2.get_state = (gW2.bird.y, gW2.bird.velocity, pB.x - gW2.bird.x,
      (pB.top_height : ℚ), (pB.top_height : ℚ) + (pB.gap : ℚ)) :=
  ⟨rfl, by with_unfolding_all decide, by with_unfolding_all decide,
    (claim2_get_state gW2).2 [pA] pB [] rfl (by with_unfolding_all decide)
      (by with_unfolding_all decide)⟩

/-- Truncation toward zero is the identity on integers. -/
lemma ratTrunc_int (n : ℤ) : ratTrunc ((n : ℤ) : ℚ) = n := by
  unfold ratTrunc
  split
  · exact Int.floor_intCast n
  · exact Int.ceil_intCast n

/-- C5 (amended): `collides_with` agrees with the claim's exact AABB test —
the square of side `size` centred on `(x, y)` against the two pipe
rectangles, strict overlap, touching edges non-overlapping — whenever the
bird's and pipe's coordinates are integers and the bird's size is even, so
that `pygame.Rect`'s integer truncation is the identity.  (At fractional
coordinates the two can disagree, see the counterexample.) -/
theorem claim5_collision_aabb (p : Pipe) (b : Bird) (nx ny npx m : ℤ)
    (hx : b.x = (nx : ℚ)) (hy : b.y = (ny : ℚ)) (hpx : p.x = (npx : ℚ))
    (hs : b.size = 2 * m) :
    p.collides_with b = p.collidesWithSpec b := by
  have hfd : Int.fdiv (2 * m) 2 = m := by
    rw [Int.fdiv_eq_ediv _ (by norm_num)]
    omega
  have h1 : ratTrunc ((nx : ℚ) - ((m : ℤ) : ℚ)) = nx - m := by
    rw [show ((nx : ℚ) - ((m : ℤ) : ℚ)) = ((nx - m : ℤ) : ℚ) by push_cast; ring]
    exact ratTrunc_int _
  have h2 : ratTrunc ((ny : ℚ) - ((m : ℤ) : ℚ)) = ny - m := by
    rw [show ((ny : ℚ) - ((m : ℤ) : ℚ)) = ((ny - m : ℤ) : ℚ) by push_cast; ring]
    exact ratTrunc_int _
  have hhalf : ((2 * m : ℤ) : ℚ) / 2 = ((m : ℤ) : ℚ) := by push_cast; ring
  rw [Bool.eq_iff_iff]
  simp only [Pipe.collides_with, Pipe.collidesWithSpec, Rect.colliderect, Bird.get_rect,
    Pipe.topRect, Pipe.bottomRect, rectOverlapQ, hx, hy, hpx, hs, hfd, h1, h2,
    ratTrunc_int, hhalf, Bool.or_eq_true, Bool.and_eq_true, decide_eq_true_eq]
  qify

/-- C5 witness: at the integer configuration `Bird.start` against `pC5` the
code's test and the claim's exact box test coincide (both detect the
collision with the bottom pipe). -/
theorem claim5_witness :
    Bird.start.x = ((80 : ℤ) : ℚ) ∧ Bird.start.y = ((300 : ℤ) : ℚ) ∧
    pC5.x = ((40 : ℤ) : ℚ) ∧ Bird.start.size = 2 * 15 ∧
    pC5.collides_with Bird.start = pC5.collidesWithSpec Bird.start :=
  ⟨by with_unfolding_all decide, by with_unfolding_all decide,
    by with_unfolding_all decide, by decide,
    claim5_collision_aabb pC5 Bird.start 80 300 40 15 (by with_unfolding_all decide)
      (by with_unfolding_all decide) (by with_unfolding_all decide) (by decide)⟩

/-- The pipe positions a pipe loop produces: some prefix of the input
positions shifted left by the speed, followed by the untouched suffix (the
whole list is shifted when no collision stops the loop early). -/
lemma processPipes_map_x (b : Bird) (s : ℚ) :
    ∀ (ps ps' : List Pipe) (inc : ℕ) (c : Bool), processPipes b s ps = (ps', inc, c) →
      ∃ k, ps'.map Pipe.x =
        ((ps.map Pipe.x).take k).map (fun q => q - s) ++ (ps.map Pipe.x).drop k := by
  intro ps
  induction ps with
  | nil =>
      intro ps' inc c h
      simp only [processPipes, Prod.mk.injEq] at h
      obtain ⟨h1, -, -⟩ := h
      subst h1
      exact ⟨0, by simp⟩
  | cons p rest ih =>
      intro ps' inc c h
      simp only [processPipes] at h
      by_cases hcol : (pipeAdvance s p).collides_with b = true
      · rw [if_pos hcol] at h
        simp only [Prod.mk.injEq] at h
        obtain ⟨h1, -, -⟩ := h
        subst h1
        refine ⟨1, ?_⟩
        simp [pipeAdvance]
      · rw [if_neg hcol] at h
        rcases ht : processPipes b s rest with ⟨ps₂, inc₂, cc⟩
        rw [ht] at h
        by_cases hpass : (!(pipeAdvance s p).passed &&
            decide ((pipeAdvance s p).x + ((pipeAdvance s p).width : ℚ) < b.x)) = true
        · rw [if_pos hpass] at h
          simp only [Prod.mk.injEq] at h
          obtain ⟨h1, -, -⟩ := h
          subst h1
          obtain ⟨k, hk⟩ := ih ps₂ inc₂ cc ht
          refine ⟨k + 1, ?_⟩
          simp only [List.map_cons, List.take_succ_cons, List.drop_succ_cons, hk]
          rfl
        · rw [if_neg hpass] at h
          simp only [Prod.mk.injEq] at h
          obtain ⟨h1, -, -⟩ := h
          subst h1
          obtain ⟨k, hk⟩ := ih ps₂ inc₂ cc ht
          refine ⟨k + 1, ?_⟩
          simp only [List.map_cons, List.take_succ_cons, List.drop_succ_cons, hk]
          rfl

/-- Shifting a prefix of a strictly sorted list down by a common nonnegative
amount keeps it strictly sorted. -/
lemma pairwise_shift_take (xs : List ℚ) (s : ℚ) (hs : 0 ≤ s) (k : ℕ)
    (h : xs.Pairwise (· < ·)) :
    (((xs.take k).map (fun q => q - s)) ++ xs.drop k).Pairwise (· < ·) := by
  have hsplit := h
  rw [← List.take_append_drop k xs, List.pairwise_append] at hsplit
  obtain ⟨h1, h2, h3⟩ := hsplit
  rw [List.pairwise_append]
  refine ⟨?_, h2, ?_⟩
  · rw [List.pairwise_map]
    exact h1.imp (fun hab => by linarith)
  · intro a ha bq hb
    obtain ⟨a0, ha0, rfl⟩ := List.mem_map.mp ha
    have := h3 a0 ha0 bq hb
    linarith

/-- In a pipe list with strictly increasing positions every pipe is at or
left of the last one. -/
lemma le_getLast_of_sorted :
    ∀ (l : List Pipe), (l.map Pipe.x).Pairwise (· < ·) →
      ∀ lp, l.getLast? = some lp → ∀ q ∈ l, q.x ≤ lp.x := by
  intro l
  induction l with
  | nil => intro hp lp hl; simp at hl
  | cons p rest ih =>
      intro hp lp hl q hq
      rcases rest with _ | ⟨p2, rest2⟩
      · simp only [List.getLast?_singleton, Option.some.injEq] at hl
        subst hl
        simp only [List.mem_singleton] at hq
        subst hq
        exact le_refl _
      · rw [List.getLast?_cons_cons] at hl
        obtain ⟨hhead, htail⟩ := List.pairwise_cons.mp hp
        rcases List.mem_cons.mp hq with hq | hq
        · subst hq
          have hmem : lp ∈ p2 :: rest2 := List.mem_of_getLast?_eq_some hl
          exact le_of_lt (hhead lp.x (List.mem_map_of_mem Pipe.x hmem))
        · exact ih htail lp hl q hq


/-- The bounds-check tail of `step` never changes the pipe list. -/
lemma boundsCheck_ok (g0 : Game) (res : Game × GState × ℤ × Bool)
    (h : g0.boundsCheck = .ok res) : res.1.pipes = g0.pipes := by
  simp only [Game.boundsCheck] at h
  split at h <;> (simp only [Except.ok.injEq] at h; subst h; rfl)

/-- A constructed pipe sits at its requested x position. -/
lemma mkPipe_x (x0 : ℚ) (gap : ℤ) (r : ℕ) (np : Pipe) (h : Pipe.mkPipe x0 gap r = some np) :
    np.x = x0 := by
  simp only [Pipe.mkPipe] at h
  rcases hr : randint 100 (HEIGHT - gap - 100) r with _ | th
  · rw [hr] at h; simp at h
  · rw [hr] at h
    simp only [Option.map_some', Option.some.injEq] at h
    subst h
    rfl

/-- C9: `reset` establishes, and — under the spec's configuration contract
(`pipeDistance`, `speedIncreaseRate`, `base_speed` nonnegative) — every
successful `step` preserves, the invariant that the pipe list is non-empty
and strictly increasing in `x`: pipes move uniformly, despawn on the left
and spawn only appended at `x = WIDTH` when the rightmost pipe is left of
`WIDTH - pipeDistance` or none remain. -/
theorem claim9_pipes_invariant :
    (∀ (g : Game) (r : ℕ) (res : Game × GState), Game.reset g r = .ok res →
        pipesOrdered res.1.pipes) ∧
    (∀ (g : Game) (a : ℤ) (r : ℕ) (res : Game × GState × ℤ × Bool),
        0 ≤ g.pipe_distance → 0 ≤ g.speed_increase_rate → 0 ≤ g.base_speed →
        pipesOrdered g.pipes → Game.step g a r = .ok res → pipesOrdered res.1.pipes) := by
  constructor
  · intro g r res h
    simp only [Game.reset] at h
    split at h
    · exact absurd h (by simp)
    · simp only [Except.ok.injEq] at h
      subst h
      exact ⟨by simp, by simp⟩
  · intro g a r res hpd hrate hbase hord hstep
    obtain ⟨hne, hpw⟩ := hord
    have hn : 0 < g.pipes.length := List.length_pos.mpr hne
    have hs0 : 0 ≤ g.stepSpeed := by
      unfold Game.stepSpeed
      have h60 : (0 : ℚ) ≤ ((g.frames_elapsed : ℚ) + 1) / (FPS : ℚ) := by
        apply div_nonneg
        · positivity
        · norm_num [FPS]
      exact add_nonneg hbase (mul_nonneg h60 hrate)
    simp only [Game.step] at hstep
    split at hstep
    · next ps1 inc heq =>
        simp only [Except.ok.injEq] at hstep
        subst hstep
        show pipesOrdered ps1
        obtain ⟨k, hk⟩ := processPipes_map_x _ _ g.pipes ps1 inc true heq
        constructor
        · have hlen := congrArg List.length hk
          simp only [List.length_map, List.length_append, List.length_take,
            List.length_drop] at hlen
          have hpos : 0 < ps1.length := by omega
          exact List.ne_nil_of_length_pos hpos
        · rw [hk]
          exact pairwise_shift_take _ _ hs0 k hpw
    · next ps1 inc heq =>
        obtain ⟨k, hk⟩ := processPipes_map_x _ _ g.pipes ps1 inc false heq
        have hpw1 : (ps1.map Pipe.x).Pairwise (· < ·) := by
          rw [hk]
          exact pairwise_shift_take _ _ hs0 k hpw
        have hpw2 : ((ps1.filter (fun p => !p.off_screen)).map Pipe.x).Pairwise (· < ·) :=
          hpw1.sublist ((List.filter_sublist ps1).map Pipe.x)
        split at hstep
        · next hcond =>
            split at hstep
            · exact absurd hstep (by simp)
            · next np hmk =>
                have hpipes := boundsCheck_ok _ _ hstep
                have hnpx : ({ np with speed := g.stepSpeed } : Pipe).x = (WIDTH : ℚ) := by
                  have := mkPipe_x _ _ _ _ hmk
                  simpa using this
                rw [hpipes]
                constructor
                · simp
                · rw [List.map_append]
                  rw [List.pairwise_append]
                  refine ⟨hpw2, by simp, ?_⟩
                  intro ax hax bx hbx
                  simp only [List.map_cons, List.map_nil, List.mem_singleton] at hbx
                  subst hbx
                  rw [hnpx]
                  obtain ⟨q, hq, rfl⟩ := List.mem_map.mp hax
                  rcases hlast : (ps1.filter (fun p => !p.off_screen)).getLast? with _ | lp
                  · rw [List.getLast?_eq_none_iff] at hlast
                    rw [hlast] at hq
                    exact absurd hq (by simp)
                  · rw [hlast] at hcond
                    simp only [decide_eq_true_eq] at hcond
                    have hqlp : q.x ≤ lp.x :=
                      le_getLast_of_sorted _ hpw2 lp hlast q hq
                    have : (0 : ℚ) ≤ g.pipe_distance := hpd
                    calc q.x ≤ lp.x := hqlp
                      _ < (WIDTH : ℚ) - g.pipe_distance := hcond
                      _ ≤ (WIDTH : ℚ) := by linarith
        · next hcond =>
            have hpipes := boundsCheck_ok _ _ hstep
            rw [hpipes]
            rcases hlast : (ps1.filter (fun p => !p.off_screen)).getLast? with _ | lp
            · exfalso
              apply hcond
              rw [hlast]
            · refine ⟨?_, hpw2⟩
              exact List.ne_nil_of_mem (List.mem_of_getLast?_eq_some hlast)

/-- C9 witness: a concrete step that despawns nothing and spawns a new pipe
on the right keeps the list ordered. -/
theorem claim9_witness :
    0 ≤ gW9.pipe_distance ∧ 0 ≤ gW9.speed_increase_rate ∧ 0 ≤ gW9.base_speed ∧
    pipesOrdered gW9.pipes ∧
    gW9.step 0 7 = .ok (gW9b, (601/2, 1/2, -33, 150, 350), 1, false) ∧
    pipesOrdered gW9b.pipes :=
  ⟨by with_unfolding_all decide, by with_unfolding_all decide, by with_unfolding_all decide,
    by with_unfolding_all decide, by with_unfolding_all decide,
    claim9_pipes_invariant.2 gW9 0 7 (gW9b, (601/2, 1/2, -33, 150, 350), 1, false)
      (by with_unfolding_all decide) (by with_unfolding_all decide)
      (by with_unfolding_all decide) (by with_unfolding_all decide)
      (by with_unfolding_all decide)⟩

end Flappy
